import Mathlib

/-!
Verification development for the caching-proxy server
(`main.py`, `cache_backends.py`, `models.py`, `config.py`).

Modelling conventions:
* Python `str` values are kept as Lean `String`s where they are opaque keys,
  and serialized output is built as `List Char` so that concatenation
  computes structurally.
* `time.time()` is modelled as an explicit `now : ℤ` argument passed to
  every operation that reads the clock; TTLs (Python ints) are integers
  too.  The code uses the clock only through `+` and `<`, whose behavior
  on the whole-second instants the properties exercise is the same for
  floats and integers.
* Python dicts that the code only reads by exact key (headers, the ordered
  cache dict) are modelled as association lists; `OrderedDict` iteration
  order is the list order, front = least recently used.
* Fallible IO (the Redis transport, the origin fetch) is modelled with
  `Except`: an uncaught Python exception is an `Except.error` that
  propagates, exactly where the source has no `try`/`except`.
-/

set_option maxRecDepth 1000000

set_option maxHeartbeats 4000000

namespace CachingProxy

/-! ## Python JSON values

`ProxyRequest.params`/`body` are JSON-serializable Python data
(`Dict[str, Any]` / `Any`).  We model the JSON-serializable fragment the
proxy handles: `None`, booleans, ints, strings, lists and dicts. -/

inductive PyJson where
  | null
  | boolean (b : Bool)
  | int (n : Int)
  | str (s : String)
  | arr (xs : List PyJson)
  | obj (kvs : List (String × PyJson))

/-- Byte-wise (code-point) strict comparison of char lists, the order Python
uses to compare `str` keys in `sorted`. -/
def charListLt : List Char → List Char → Bool
  | [], [] => false
  | [], _ :: _ => true
  | _ :: _, [] => false
  | a :: as, b :: bs =>
    if a.toNat < b.toNat then true
    else if b.toNat < a.toNat then false
    else charListLt as bs

/-- Comparison `a ≤ b` on strings by code points (Python `str` comparison). -/
def strLeB (a b : String) : Bool := !(charListLt b.data a.data)

/-- Stable insertion of a key/value pair into a list sorted by key. -/
def insertByKey (p : String × List Char) :
    List (String × List Char) → List (String × List Char)
  | [] => [p]
  | q :: r => if strLeB p.1 q.1 then p :: q :: r else q :: insertByKey p r

/-- Stable sort by key, modelling `sorted(d.items())` which
`json.dumps(..., sort_keys=True)` performs on every dict. -/
def isortByKey : List (String × List Char) → List (String × List Char)
  | [] => []
  | p :: r => insertByKey p (isortByKey r)

/-- Lowercase hex digit. -/
def hexDigit (n : Nat) : Char :=
  if n < 10 then Char.ofNat (48 + n) else Char.ofNat (87 + n)

/-- Four lowercase hex digits, most significant first (`\uXXXX` payload). -/
def u4 (n : Nat) : List Char :=
  [hexDigit (n / 4096 % 16), hexDigit (n / 256 % 16),
   hexDigit (n / 16 % 16), hexDigit (n % 16)]

/-- How `json.dumps` (default `ensure_ascii=True`) escapes one character of a
string: the two-character escapes for `"` `\` and the control characters with
short names, `\uXXXX` for everything else outside `0x20`–`0x7e`, and the
character itself otherwise.  Astral characters become a surrogate pair. -/
def pyEscapeChar (c : Char) : List Char :=
  if c = '"' then ['\\', '"']
  else if c = '\\' then ['\\', '\\']
  else if c = '\n' then ['\\', 'n']
  else if c = '\r' then ['\\', 'r']
  else if c = '\t' then ['\\', 't']
  else if c.toNat = 8 then ['\\', 'b']
  else if c.toNat = 12 then ['\\', 'f']
  else if 32 ≤ c.toNat && c.toNat ≤ 126 then [c]
  else if c.toNat < 65536 then '\\' :: 'u' :: u4 c.toNat
  else
    let v := c.toNat - 65536
    '\\' :: 'u' :: u4 (55296 + v / 1024) ++ '\\' :: 'u' :: u4 (56320 + v % 1024)

/-- JSON serialization of a Python string (quotes plus escaping). -/
def pyStrLit (s : String) : List Char :=
  '"' :: (s.data.foldr (fun c acc => pyEscapeChar c ++ acc) ['"'])

/-- Decimal digits of a natural number (guided by the number itself as fuel). -/
def natDigits : Nat → Nat → List Char
  | 0, _ => []
  | fuel + 1, n =>
    if n = 0 then []
    else natDigits fuel (n / 10) ++ [Char.ofNat (48 + n % 10)]

/-- Python `str(int)`: decimal, `-` sign for negatives. -/
def pyIntLit (n : Int) : List Char :=
  if n = 0 then ['0']
  else if n < 0 then '-' :: natDigits n.natAbs n.natAbs
  else natDigits n.natAbs n.natAbs

/-- Join the already-serialized `"key": value` items of a dict with `, `,
the default `json.dumps` item separator. -/
def joinPairs : List (String × List Char) → List Char
  | [] => []
  | [(k, v)] => pyStrLit k ++ ':' :: ' ' :: v
  | (k, v) :: r => pyStrLit k ++ ':' :: ' ' :: v ++ ',' :: ' ' :: joinPairs r

mutual
/-- Python `json.dumps(v, sort_keys=True)` with the default separators
`(", ", ": ")`, producing the serialized text as a char list. -/
def dumpsV : PyJson → List Char
  | .null => ['n', 'u', 'l', 'l']
  | .boolean true => ['t', 'r', 'u', 'e']
  | .boolean false => ['f', 'a', 'l', 's', 'e']
  | .int n => pyIntLit n
  | .str s => pyStrLit s
  | .arr xs => '[' :: dumpsArr xs ++ [']']
  | .obj kvs => '\x7b' :: joinPairs (isortByKey (dumpsPairs kvs)) ++ ['\x7d']

/-- Serialize the elements of a JSON array, `, `-separated. -/
def dumpsArr : List PyJson → List Char
  | [] => []
  | [x] => dumpsV x
  | x :: y :: r => dumpsV x ++ ',' :: ' ' :: dumpsArr (y :: r)

/-- Serialize each dict value, keeping the raw key for sorting. -/
def dumpsPairs : List (String × PyJson) → List (String × List Char)
  | [] => []
  | (k, v) :: r => (k, dumpsV v) :: dumpsPairs r
end

/-! ## UTF-8 and MD5

`generate_cache_key` in `main.py` hashes `key_string.encode()` (UTF-8) with
`hashlib.md5` and returns the lowercase hex digest.  We implement both from
their definitions; 32-bit machine words are `Nat`s reduced `% 2^32`, and the
bitwise operations are spelled out with division and remainder so that the
kernel can evaluate them. -/

/-- UTF-8 encoding of one code point. -/
def utf8Char (c : Nat) : List Nat :=
  if c < 128 then [c]
  else if c < 2048 then [192 + c / 64, 128 + c % 64]
  else if c < 65536 then [224 + c / 4096, 128 + c / 64 % 64, 128 + c % 64]
  else [240 + c / 262144, 128 + c / 4096 % 64, 128 + c / 64 % 64, 128 + c % 64]

/-- Python `str.encode()`: UTF-8 bytes of a char list. -/
def utf8Encode (s : List Char) : List Nat :=
  s.foldr (fun c acc => utf8Char c.toNat ++ acc) []

/-- The 32 bit positions of a machine word. -/
def bits32 : List Nat :=
  [1, 2, 4, 8, 16, 32, 64, 128, 256, 512, 1024, 2048, 4096, 8192, 16384,
   32768, 65536, 131072, 262144, 524288, 1048576, 2097152, 4194304, 8388608,
   16777216, 33554432, 67108864, 134217728, 268435456, 536870912, 1073741824,
   2147483648]

/-- 32-bit bitwise AND via per-bit arithmetic. -/
def wAnd (a b : Nat) : Nat :=
  bits32.foldl (fun acc p => acc + (a / p % 2) * (b / p % 2) * p) 0

/-- 32-bit bitwise OR via per-bit arithmetic. -/
def wOr (a b : Nat) : Nat :=
  bits32.foldl
    (fun acc p => acc + (if a / p % 2 = 1 || b / p % 2 = 1 then p else 0)) 0

/-- 32-bit bitwise XOR via per-bit arithmetic. -/
def wXor (a b : Nat) : Nat :=
  bits32.foldl
    (fun acc p => acc + (if a / p % 2 ≠ b / p % 2 then p else 0)) 0

/-- 32-bit bitwise complement (for `a < 2^32`). -/
def wNot (a : Nat) : Nat := 4294967295 - a

/-- Left-rotation of a 32-bit word by `s < 32` places. -/
def rotl (x s : Nat) : Nat := x % 2 ^ (32 - s) * 2 ^ s + x / 2 ^ (32 - s)

/-- The MD5 sine-derived constant table `T[1..64]`. -/
def md5K : List Nat :=
  [0xd76aa478, 0xe8c7b756, 0x242070db, 0xc1bdceee,
   0xf57c0faf, 0x4787c62a, 0xa8304613, 0xfd469501,
   0x698098d8, 0x8b44f7af, 0xffff5bb1, 0x895cd7be,
   0x6b901122, 0xfd987193, 0xa679438e, 0x49b40821,
   0xf61e2562, 0xc040b340, 0x265e5a51, 0xe9b6c7aa,
   0xd62f105d, 0x02441453, 0xd8a1e681, 0xe7d3fbc8,
   0x21e1cde6, 0xc33707d6, 0xf4d50d87, 0x455a14ed,
   0xa9e3e905, 0xfcefa3f8, 0x676f02d9, 0x8d2a4c8a,
   0xfffa3942, 0x8771f681, 0x6d9d6122, 0xfde5380c,
   0xa4beea44, 0x4bdecfa9, 0xf6bb4b60, 0xbebfbc70,
   0x289b7ec6, 0xeaa127fa, 0xd4ef3085, 0x04881d05,
   0xd9d4d039, 0xe6db99e5, 0x1fa27cf8, 0xc4ac5665,
   0xf4292244, 0x432aff97, 0xab9423a7, 0xfc93a039,
   0x655b59c3, 0x8f0ccc92, 0xffeff47d, 0x85845dd1,
   0x6fa87e4f, 0xfe2ce6e0, 0xa3014314, 0x4e0811a1,
   0xf7537e82, 0xbd3af235, 0x2ad7d2bb, 0xeb86d391]

/-- The MD5 per-round left-rotation amounts. -/
def md5S : List Nat :=
  [7, 12, 17, 22, 7, 12, 17, 22, 7, 12, 17, 22, 7, 12, 17, 22,
   5, 9, 14, 20, 5, 9, 14, 20, 5, 9, 14, 20, 5, 9, 14, 20,
   4, 11, 16, 23, 4, 11, 16, 23, 4, 11, 16, 23, 4, 11, 16, 23,
   6, 10, 15, 21, 6, 10, 15, 21, 6, 10, 15, 21, 6, 10, 15, 21]

/-- Little-endian 32-bit word `i` of a 64-byte block. -/
def blockWord (block : List Nat) (i : Nat) : Nat :=
  block.getD (4 * i) 0 + block.getD (4 * i + 1) 0 * 256 +
    block.getD (4 * i + 2) 0 * 65536 + block.getD (4 * i + 3) 0 * 16777216

/-- One MD5 operation (step `i` of 64) on the running `(a, b, c, d)`. -/
def md5Step (block : List Nat) (st : Nat × Nat × Nat × Nat) (i : Nat) :
    Nat × Nat × Nat × Nat :=
  let (a, b, c, d) := st
  let f :=
    if i < 16 then wOr (wAnd b c) (wAnd (wNot b) d)
    else if i < 32 then wOr (wAnd d b) (wAnd (wNot d) c)
    else if i < 48 then wXor b (wXor c d)
    else wXor c (wOr b (wNot d))
  let g :=
    if i < 16 then i
    else if i < 32 then (5 * i + 1) % 16
    else if i < 48 then (3 * i + 5) % 16
    else 7 * i % 16
  let tmp := (a + f + md5K.getD i 0 + blockWord block g) % 4294967296
  (d, (b + rotl tmp (md5S.getD i 0)) % 4294967296, b, c)

/-- Process one 64-byte block, updating the four chaining words. -/
def md5Block (st : Nat × Nat × Nat × Nat) (block : List Nat) :
    Nat × Nat × Nat × Nat :=
  let (a0, b0, c0, d0) := st
  let (a, b, c, d) := (List.range 64).foldl (md5Step block) (a0, b0, c0, d0)
  ((a0 + a) % 4294967296, (b0 + b) % 4294967296,
   (c0 + c) % 4294967296, (d0 + d) % 4294967296)

/-- MD5 padding: `0x80`, zeros to 56 mod 64, then the bit length as eight
little-endian bytes. -/
def md5Pad (msg : List Nat) : List Nat :=
  let len := msg.length
  let bitLen := len * 8 % 18446744073709551616
  let padZeros := (119 - len % 64) % 64
  msg ++ 128 :: List.replicate padZeros 0 ++
    [bitLen % 256, bitLen / 256 % 256, bitLen / 65536 % 256,
     bitLen / 16777216 % 256, bitLen / 4294967296 % 256,
     bitLen / 1099511627776 % 256, bitLen / 281474976710656 % 256,
     bitLen / 72057594037927936 % 256]

/-- Split a padded message into 64-byte blocks (fuel = remaining length). -/
def md5Blocks : Nat → List Nat → List (List Nat)
  | 0, _ => []
  | _, [] => []
  | fuel + 1, msg => msg.take 64 :: md5Blocks fuel (msg.drop 64)

/-- Two lowercase hex digits of a byte. -/
def byteHex (n : Nat) : List Char := [hexDigit (n / 16 % 16), hexDigit (n % 16)]

/-- Hex rendering of one 32-bit word, least significant byte first. -/
def wordHex (w : Nat) : List Char :=
  byteHex (w % 256) ++ byteHex (w / 256 % 256) ++ byteHex (w / 65536 % 256) ++
    byteHex (w / 16777216 % 256)

/-- Python `hashlib.md5(msg).hexdigest()` on a byte list. -/
def md5Hex (msg : List Nat) : List Char :=
  let padded := md5Pad msg
  let (a, b, c, d) :=
    (md5Blocks padded.length padded).foldl md5Block
      (0x67452301, 0xefcdab89, 0x98badcfe, 0x10325476)
  wordHex a ++ wordHex b ++ wordHex c ++ wordHex d

/-! ## Request/response model (`models.py`) and key derivation (`main.py`) -/

/-- The `models.ProxyRequest` model.  `body: Optional[Any] = None` — an absent body is
Python `None`, which is JSON `null`, so `body` is a `PyJson` defaulting to
`.null`; `params: Optional[Dict[str, Any]] = None` keeps its `Option` so that
`params or {}` can be modelled; header values never reach the cache key. -/
structure ProxyRequest where
  url : String
  method : String := "GET"
  headers : Option (List (String × String)) := none
  body : PyJson := .null
  params : Option (List (String × PyJson)) := none

/-- The `models.ProxyResponse` model. -/
structure ProxyResponse where
  status_code : Int
  content : List Nat
  headers : List (String × String)
  from_cache : Bool := false
  cache_key : Option String := none
deriving DecidableEq

/-- The `key_string` of `generate_cache_key`:
`json.dumps({"url": ..., "method": ..., "params": request.params or {},
"body": request.body}, sort_keys=True)`.  `request.params or {}` maps both
`None` and the empty dict to `{}`; `request.body` is used unchanged. -/
def cache_key_string (request : ProxyRequest) : List Char :=
  dumpsV (.obj
    [("url", .str request.url), ("method", .str request.method),
     ("params", .obj (request.params.getD [])), ("body", request.body)])

/-- Function `generate_cache_key`: md5 hex digest of the UTF-8 bytes of
`key_string`. -/
def generate_cache_key (request : ProxyRequest) : String :=
  String.mk (md5Hex (utf8Encode (cache_key_string request)))

/-- Python `d.get(k, default)` on a dict modelled as an association list:
an exact, case-sensitive lookup of the key. -/
def dictGet (d : List (String × String)) (k dflt : String) : String :=
  match d.find? (fun p => p.1 == k) with
  | some p => p.2
  | none => dflt

/-- Lowercase one character.  `str.lower()` maps the full Unicode case
table; the header values the policy inspects are ASCII, where this agrees
with Python. -/
def charLower (c : Char) : Char :=
  if 65 ≤ c.toNat && c.toNat ≤ 90 then Char.ofNat (c.toNat + 32) else c

/-- Python `s.lower()` (ASCII). -/
def pyLower (s : String) : String := String.mk (s.data.map charLower)

/-- Does `hay` start with `needle`? -/
def startsWithChars : List Char → List Char → Bool
  | [], _ => true
  | _ :: _, [] => false
  | a :: as, b :: bs => a == b && startsWithChars as bs

/-- Substring containment on char lists. -/
def containsChars (needle : List Char) : List Char → Bool
  | [] => needle.isEmpty
  | c :: rest => startsWithChars needle (c :: rest) || containsChars needle rest

/-- Python `needle in hay` on strings (substring containment). -/
def pyIn (needle hay : String) : Bool :=
  containsChars needle.data hay.data

/-- Function `is_cacheable_response` from `main.py`: status must be one of
200/301/302, and the value of the `"cache-control"` key (exact lookup,
defaulting to `""`), lowercased, must not contain `no-store` or
`no-cache`. -/
def is_cacheable_response (status_code : Int) (headers : List (String × String)) : Bool :=
  if !(status_code == 200 || status_code == 301 || status_code == 302) then
    false
  else
    let cache_control := pyLower (dictGet headers "cache-control" "")
    if pyIn "no-store" cache_control || pyIn "no-cache" cache_control then
      false
    else
      true

/-! ## `MemoryCacheBackend` (`cache_backends.py`)

The `OrderedDict` is an association list whose order is insertion/access
order: front = least recently used, back = most recently used.  Keys are
unique by dict semantics; `del d[key]` is modelled as a filter, which agrees
with it on key-unique lists.  Every clock read (`time.time()`) is an explicit
`now` argument. -/

/-- First binding of `k` in an association list. -/
def lookupKey (c : List (String × α)) (k : String) : Option α :=
  (c.find? (fun p => p.1 == k)).map (fun p => p.2)

/-- Python `del d[k]` on a key-unique association list. -/
def eraseKey (c : List (String × α)) (k : String) : List (String × α) :=
  c.filter (fun p => p.1 != k)

/-- Python `d.move_to_end(k)`: move the binding of `k` (assumed present) to the
most-recently-used end. -/
def moveToEnd (c : List (String × α)) (k : String) : List (String × α) :=
  match lookupKey c k with
  | none => c
  | some v => eraseKey c k ++ [(k, v)]

/-- The in-memory store: `_cache` holds `(value, expiry)` pairs in access
order, plus the two constructor parameters. -/
structure MemoryCacheBackend where
  cache : List (String × (ProxyResponse × ℤ))
  max_size : Nat := 1000
  default_ttl : ℤ := 300
deriving DecidableEq

/-- A fresh `MemoryCacheBackend(max_size, default_ttl)`. -/
def MemoryCacheBackend.init (max_size : Nat) (default_ttl : ℤ) :
    MemoryCacheBackend :=
  { cache := [], max_size := max_size, default_ttl := default_ttl }

/-- Method `MemoryCacheBackend.get`: absent → `None`; present with
`now > expiry` → delete the entry and return `None`; otherwise move the key
to the most-recently-used end and return the stored value. -/
def MemoryCacheBackend.get (st : MemoryCacheBackend) (now : ℤ) (key : String) :
    Option ProxyResponse × MemoryCacheBackend :=
  match lookupKey st.cache key with
  | none => (none, st)
  | some (data, expiry) =>
    if now > expiry then (none, { st with cache := eraseKey st.cache key })
    else (some data, { st with cache := moveToEnd st.cache key })

/-- Method `MemoryCacheBackend.set`: default the TTL when `None`, compute
`expiry = now + ttl`, drop an existing binding of the key, evict the
least-recently-used entry when the size has reached `max_size`, then insert
at the most-recently-used end.  (`popitem(last=False)` on an empty dict
raises; that is reachable only with `max_size = 0`, which no claim uses.) -/
def MemoryCacheBackend.set (st : MemoryCacheBackend) (now : ℤ) (key : String)
    (value : ProxyResponse) (ttl : Option ℤ) : MemoryCacheBackend :=
  let t := ttl.getD st.default_ttl
  let expiry := now + t
  let c :=
    if (lookupKey st.cache key).isSome then eraseKey st.cache key
    else st.cache
  let c := if c.length ≥ st.max_size then c.drop 1 else c
  { st with cache := c ++ [(key, (value, expiry))] }

/-- Method `MemoryCacheBackend.delete`: remove the binding if present. -/
def MemoryCacheBackend.delete (st : MemoryCacheBackend) (key : String) :
    MemoryCacheBackend :=
  { st with cache := eraseKey st.cache key }

/-- Method `MemoryCacheBackend.exists`: like `get` on freshness (an expired entry is
deleted and reported absent) but without the recency touch. -/
def MemoryCacheBackend.existsKey (st : MemoryCacheBackend) (now : ℤ)
    (key : String) : Bool × MemoryCacheBackend :=
  match lookupKey st.cache key with
  | none => (false, st)
  | some (_, expiry) =>
    if now > expiry then (false, { st with cache := eraseKey st.cache key })
    else (true, st)

/-- One store-contract operation, with the clock reading it observes. -/
inductive MemOp where
  | get (now : ℤ) (key : String)
  | set (now : ℤ) (key : String) (value : ProxyResponse) (ttl : Option ℤ)
  | delete (key : String)
  | existsKey (now : ℤ) (key : String)

/-- Apply one store operation (results discarded, state kept). -/
def applyMemOp (st : MemoryCacheBackend) : MemOp → MemoryCacheBackend
  | .get now key => (st.get now key).2
  | .set now key value ttl => st.set now key value ttl
  | .delete key => st.delete key
  | .existsKey now key => (st.existsKey now key).2

/-- Run a sequence of store operations. -/
def runMemOps (st : MemoryCacheBackend) (ops : List MemOp) :
    MemoryCacheBackend :=
  ops.foldl applyMemOp st

/-! ## Statistics (`main.py` globals and `/stats`) -/

/-- The module-level `cache_stats` dict. -/
structure Stats where
  hits : Nat := 0
  misses : Nat := 0
  total_requests : Nat := 0
deriving DecidableEq

/-- Round half to even, Python's `round` tie-breaking, on an exact
rational. -/
def pyRoundHalfEven (q : ℚ) : ℤ :=
  let f : ℤ := ⌊q⌋
  let r : ℚ := q - f
  if r < 1 / 2 then f
  else if 1 / 2 < r then f + 1
  else if f % 2 = 0 then f else f + 1

/-- Python `round(x, 2)`.  Python rounds the IEEE double; on the exact-rational
model this is rounding to the nearest multiple of `1/100`, half to even,
which agrees with the float computation on the values these theorems
evaluate. -/
def pyRound2 (q : ℚ) : ℚ := (pyRoundHalfEven (q * 100) : ℚ) / 100

/-- The `hit_rate` field of `/stats`:
`round((hits / total * 100) if total > 0 else 0, 2)`. -/
def get_stats_hit_rate (stats : Stats) : ℚ :=
  if stats.total_requests > 0 then
    pyRound2 ((stats.hits : ℚ) / (stats.total_requests : ℚ) * 100)
  else 0

/-! ## The orchestrator `process_proxy_request` (`main.py`)

The source function awaits `cache_manager.get`/`set`, which dispatch to the
configured backend.  It is embedded twice, once per backend, because the
two backends give the shared response object different ownership semantics
(see each definition).  The origin fetch `make_http_request` is an injected
collaborator: a function producing either a fetch failure (an `httpx`
exception, which the orchestrator does not catch) or the origin status,
content and headers — it always constructs its `ProxyResponse` with
`from_cache=False` and a default (`None`) `cache_key`. -/

/-- The data an origin fetch produces. -/
structure FetchResult where
  status_code : Int
  content : List Nat
  headers : List (String × String)
deriving DecidableEq

/-- An origin fetcher: `none` models a raised fetch error. -/
def Fetcher : Type := ProxyRequest → Option FetchResult

/-- The assignment `cache_ttl = ttl or settings.cache_ttl`: Python `or` falls back on any
falsy left operand, so both `None` and `0` yield the configured default. -/
def pyOrTTL (ttl : Option ℤ) (dflt : ℤ) : ℤ :=
  match ttl with
  | none => dflt
  | some t => if t = 0 then dflt else t

/-- A raised exception escaping `process_proxy_request`. -/
inductive ProxyFailure where
  | fetchFailed
  | storeUnavailable
deriving DecidableEq

/-- Replace the value stored under `k`, keeping its expiry.  This is how a
Python field assignment on the object returned by `MemoryCacheBackend.get`
reads back through the store: the dict holds the same object. -/
def updateValue (c : List (String × (ProxyResponse × ℤ))) (k : String)
    (v : ProxyResponse) : List (String × (ProxyResponse × ℤ)) :=
  c.map (fun p => if p.1 == k then (p.1, (v, p.2.2)) else p)

/-- The global mutable state of `main.py` with the memory backend. -/
structure AppState where
  cache_manager : MemoryCacheBackend
  cache_stats : Stats
deriving DecidableEq

/-- Function `process_proxy_request` with the memory backend: count the request,
derive the key, try the cache; on a hit count it, set `from_cache`/
`cache_key` on the returned object — which is the very object the store
retains, so the store sees the mutation — and return it; on a miss count it,
fetch (an uncaught fetch error propagates, after the counters were already
mutated), attach the key, and store the response when cacheable with
`ttl or settings.cache_ttl`.  Returns the outcome and the final globals. -/
def process_proxy_request_mem (fetch : Fetcher) (settings_ttl : ℤ) (now : ℤ)
    (s : AppState) (request : ProxyRequest) (ttl : Option ℤ) :
    Except ProxyFailure ProxyResponse × AppState :=
  let stats :=
    { s.cache_stats with total_requests := s.cache_stats.total_requests + 1 }
  let cache_key := generate_cache_key request
  match s.cache_manager.get now cache_key with
  | (some cached, mem) =>
    let stats := { stats with hits := stats.hits + 1 }
    let response := { cached with from_cache := true, cache_key := some cache_key }
    let mem := { mem with cache := updateValue mem.cache cache_key response }
    (.ok response, ⟨mem, stats⟩)
  | (none, mem) =>
    let stats := { stats with misses := stats.misses + 1 }
    match fetch request with
    | none => (.error .fetchFailed, ⟨mem, stats⟩)
    | some f =>
      let response : ProxyResponse :=
        { status_code := f.status_code, content := f.content,
          headers := f.headers, from_cache := false,
          cache_key := some cache_key }
      if is_cacheable_response response.status_code response.headers then
        let cache_ttl := pyOrTTL ttl settings_ttl
        (.ok response, ⟨mem.set now cache_key response (some cache_ttl), stats⟩)
      else
        (.ok response, ⟨mem, stats⟩)

/-- One interaction with the running app: a proxy request (`/proxy` or the
middleware), or one of the admin endpoints `/cache/info/{key}` (a plain
`cache_manager.get`), `DELETE /cache/{key}`, or `/cache/clear`. -/
inductive AppStep where
  | proxy (fetch : Fetcher) (now : ℤ) (request : ProxyRequest) (ttl : Option ℤ)
  | cacheInfo (now : ℤ) (key : String)
  | deleteItem (key : String)
  | clearCache

/-- Apply one interaction to the global state. -/
def applyAppStep (settings_ttl : ℤ) (s : AppState) : AppStep → AppState
  | .proxy fetch now request ttl =>
    (process_proxy_request_mem fetch settings_ttl now s request ttl).2
  | .cacheInfo now key => { s with cache_manager := (s.cache_manager.get now key).2 }
  | .deleteItem key => { s with cache_manager := s.cache_manager.delete key }
  | .clearCache => { s with cache_manager := { s.cache_manager with cache := [] } }

/-- Run a sequence of interactions from a given state. -/
def runApp (settings_ttl : ℤ) (s : AppState) (steps : List AppStep) : AppState :=
  steps.foldl (applyAppStep settings_ttl) s

/-- The state at startup: backend constructed from settings, zero
counters. -/
def AppState.init (max_size : Nat) (default_ttl : ℤ) : AppState :=
  ⟨MemoryCacheBackend.init max_size default_ttl, {}⟩

/-! ## The orchestrator with the Redis backend

`RedisCacheBackend` serializes with pickle and talks to a remote store; the
remote side and the transport are not part of this repository, so they are
modelled from the spec (§4.3 RemoteStore): contents are an association list
(pickle round-trips values, so no aliasing back into the orchestrator), the
remote store enforces expiry natively, and any transport failure surfaces as
a store-level failure of the operation.  The per-operation `getOk`/`setOk`
flags say whether the transport succeeds for that call. -/

structure RedisNet where
  kv : List (String × (ProxyResponse × ℤ))
  getOk : Bool := true
  setOk : Bool := true
deriving DecidableEq

/-- Method `RedisCacheBackend.get`: transport failure raises; otherwise the remote
value (already expired keys are absent remotely). -/
def redisGet (r : RedisNet) (now : ℤ) (key : String) :
    Except ProxyFailure (Option ProxyResponse) :=
  if r.getOk then
    match lookupKey r.kv key with
    | none => .ok none
    | some (v, expiry) => if now < expiry then .ok (some v) else .ok none
  else .error .storeUnavailable

/-- Method `RedisCacheBackend.set` (`setex`): transport failure raises; otherwise
an atomic set-with-expiry. -/
def redisSet (r : RedisNet) (now : ℤ) (key : String) (value : ProxyResponse)
    (ttl : ℤ) : Except ProxyFailure RedisNet :=
  if r.setOk then
    .ok { r with kv := eraseKey r.kv key ++ [(key, (value, now + ttl))] }
  else .error .storeUnavailable

/-- Function `process_proxy_request` with the Redis backend.  Identical control flow
to the memory variant, but `get`/`set` can raise, and the source wraps
neither in `try`/`except`, so a store failure escapes the function (the
already-mutated global counters survive it). -/
def process_proxy_request_redis (fetch : Fetcher) (settings_ttl : ℤ)
    (now : ℤ) (r : RedisNet) (stats : Stats) (request : ProxyRequest)
    (ttl : Option ℤ) : Except ProxyFailure ProxyResponse × RedisNet × Stats :=
  let stats := { stats with total_requests := stats.total_requests + 1 }
  let cache_key := generate_cache_key request
  match redisGet r now cache_key with
  | .error e => (.error e, r, stats)
  | .ok (some cached) =>
    let stats := { stats with hits := stats.hits + 1 }
    let response := { cached with from_cache := true, cache_key := some cache_key }
    (.ok response, r, stats)
  | .ok none =>
    let stats := { stats with misses := stats.misses + 1 }
    match fetch request with
    | none => (.error .fetchFailed, r, stats)
    | some f =>
      let response : ProxyResponse :=
        { status_code := f.status_code, content := f.content,
          headers := f.headers, from_cache := false,
          cache_key := some cache_key }
      if is_cacheable_response response.status_code response.headers then
        let cache_ttl := pyOrTTL ttl settings_ttl
        match redisSet r now cache_key response cache_ttl with
        | .error e => (.error e, r, stats)
        | .ok r2 => (.ok response, r2, stats)
      else
        (.ok response, r, stats)

/-! ## Association-list lemmas -/

theorem lookup_eraseKey_self (c : List (String × α)) (k : String) :
    lookupKey (eraseKey c k) k = none := by
  induction c with
  | nil => rfl
  | cons p r ih =>
    by_cases h : p.1 = k
    · simp only [eraseKey, List.filter_cons, show (p.1 != k) = false by simp [h]]
      exact ih
    · simp only [eraseKey, List.filter_cons, show (p.1 != k) = true by simp [h],
        lookupKey, List.find?, show (p.1 == k) = false by simpa using h]
      exact ih

theorem lookup_append_single (c : List (String × α)) (k : String) (v : α)
    (h : lookupKey c k = none) : lookupKey (c ++ [(k, v)]) k = some v := by
  induction c with
  | nil => simp [lookupKey]
  | cons p r ih =>
    by_cases hp : p.1 = k
    · simp [lookupKey, hp] at h
    · simp only [lookupKey, List.find?, List.cons_append] at h ⊢
      simp only [show (p.1 == k) = false by simpa using hp] at h ⊢
      exact ih h

theorem lookup_updateValue (c : List (String × (ProxyResponse × ℤ)))
    (k : String) (v : ProxyResponse) :
    lookupKey (updateValue c k v) k =
      (lookupKey c k).map (fun p => (v, p.2)) := by
  induction c with
  | nil => rfl
  | cons p r ih =>
    by_cases hp : p.1 = k
    · simp [updateValue, lookupKey, List.find?, hp]
    · have hb : (p.1 == k) = false := by simpa using hp
      simp only [updateValue, lookupKey, List.map_cons, List.find?, hb,
        Bool.false_eq_true, if_false] at ih ⊢
      exact ih

theorem lookup_drop_one (c : List (String × α)) (k : String)
    (h : lookupKey c k = none) : lookupKey (c.drop 1) k = none := by
  cases c with
  | nil => rfl
  | cons p r =>
    by_cases hp : p.1 = k
    · simp [lookupKey, hp] at h
    · simp only [lookupKey, List.find?,
        show (p.1 == k) = false by simpa using hp] at h
      simpa [lookupKey] using h

theorem length_eraseKey_le (c : List (String × α)) (k : String) :
    (eraseKey c k).length ≤ c.length :=
  List.length_filter_le _ _

theorem length_eraseKey_lt (c : List (String × α)) (k : String)
    (h : (lookupKey c k).isSome) : (eraseKey c k).length < c.length := by
  induction c with
  | nil => simp [lookupKey] at h
  | cons p r ih =>
    by_cases hp : p.1 = k
    · simp only [eraseKey, List.filter_cons,
        show (p.1 != k) = false by simp [hp]]
      exact Nat.lt_succ_of_le (List.length_filter_le _ _)
    · simp only [lookupKey, List.find?,
        show (p.1 == k) = false by simpa using hp] at h
      simp only [eraseKey, List.filter_cons,
        show (p.1 != k) = true by simp [hp], List.length_cons]
      exact Nat.succ_lt_succ (ih h)

/-! ## Claim theorems -/

/-- Claim C3, counterexample: a 200 response whose headers hold the key
`"Cache-Control"` (capitalized) with value `"no-store"` IS cacheable — the
claimed case-insensitive header lookup is false; `headers.get("cache-control")`
is an exact-key dict lookup and misses the capitalized key, so the claim's
"never cached" fails here. -/
theorem is_cacheable_case_insensitive_counterexample :
    is_cacheable_response 200 [("Cache-Control", "no-store")] = true := by decide

/-- Claim C3, amended: `is_cacheable_response` returns true iff the status is
in `{200, 301, 302}` and the value of the exact (lowercase-spelled) header key
`"cache-control"` — header names are NOT matched case-insensitively, only the
value is lowercased — contains neither `no-store` nor `no-cache` as a
substring.  A 404 is never cached, a 200 whose headers hold the exact key
`"cache-control"` with `no-store` is never cached, a 200 with no such header
is cached, and a 200 with only the capitalized key `"Cache-Control"` is
cached. -/
theorem is_cacheable_characterization :
    (∀ (status : Int) (headers : List (String × String)),
      is_cacheable_response status headers = true ↔
        ((status = 200 ∨ status = 301 ∨ status = 302) ∧
          pyIn "no-store" (pyLower (dictGet headers "cache-control" "")) = false ∧
          pyIn "no-cache" (pyLower (dictGet headers "cache-control" "")) = false))
    ∧ (∀ headers, is_cacheable_response 404 headers = false)
    ∧ is_cacheable_response 200 [("cache-control", "no-store")] = false
    ∧ is_cacheable_response 200 [] = true
    ∧ is_cacheable_response 200 [("Cache-Control", "no-store")] = true := by
  refine ⟨?_, fun _ => rfl, by decide, by decide, by decide⟩
  intro status headers
  unfold is_cacheable_response
  by_cases h2 : status = 200 <;> by_cases h3 : status = 301 <;>
    by_cases h4 : status = 302 <;>
      simp [h2, h3, h4]

/-- Claim C10: the cache key derived when `params` is absent equals the key
for the otherwise-identical request whose `params` is the empty mapping:
`request.params or {}` maps `None` and `{}` to the same `{}` before
serialization, so the two requests share one cache entry. -/
theorem params_absent_equals_empty :
    ∀ (url method : String) (h1 h2 : Option (List (String × String)))
      (body : PyJson),
      generate_cache_key
        { url := url, method := method, headers := h1, body := body,
          params := none } =
      generate_cache_key
        { url := url, method := method, headers := h2, body := body,
          params := some [] } :=
  fun _ _ _ _ _ => rfl

/-- Claim C7: `generate_cache_key` is a pure function of url, method, params
and body only — two requests agreeing on those four fields get the same key
whatever their header mappings — and dict keys are serialized in sorted
order, so the params `{a:1, b:2}` and `{b:2, a:1}` derive the same key. -/
theorem cache_key_determinism :
    (∀ r1 r2 : ProxyRequest, r1.url = r2.url → r1.method = r2.method →
      r1.params = r2.params → r1.body = r2.body →
      generate_cache_key r1 = generate_cache_key r2)
    ∧ generate_cache_key
        { url := "https://example.com", method := "GET",
          params := some [("a", .int 1), ("b", .int 2)] } =
      generate_cache_key
        { url := "https://example.com", method := "GET",
          params := some [("b", .int 2), ("a", .int 1)] } := by
  constructor
  · intro r1 r2 hu hm hp hb
    cases r1; cases r2
    simp only at hu hm hp hb
    simp [generate_cache_key, cache_key_string, hu, hm, hp, hb]
  · exact congrArg (fun l => String.mk (md5Hex (utf8Encode l))) (by decide)

/-- Claim C7 witness: two concrete requests with different header mappings
(and equal url/method/params/body) derive equal keys. -/
theorem cache_key_determinism_witness :
    generate_cache_key
      { url := "https://example.com/a", method := "GET",
        headers := some [("Authorization", "token-1")] } =
    generate_cache_key
      { url := "https://example.com/a", method := "GET",
        headers := some [("Accept", "text/html")] } :=
  cache_key_determinism.1 _ _ rfl rfl rfl rfl

/-- Claim C9: a request with absent body (`None`, serialized `null`) and the
otherwise-identical request with body `{}` produce different canonical
fingerprints — the serialized `key_string`s differ at the body position for
every request — and the md5 cache keys of the representative request differ
accordingly. -/
theorem body_absent_vs_empty_distinct :
    (∀ (url method : String) (hd : Option (List (String × String)))
      (params : Option (List (String × PyJson))),
      cache_key_string
          { url := url, method := method, headers := hd, body := .null,
            params := params } ≠
        cache_key_string
          { url := url, method := method, headers := hd, body := .obj [],
            params := params })
    ∧ generate_cache_key { url := "https://example.com/a", method := "GET" } ≠
        generate_cache_key
          { url := "https://example.com/a", method := "GET", body := .obj [] } := by
  constructor
  · intro url method hd params h
    have h10 : (['\x7b', '"', 'b', 'o', 'd', 'y', '"', ':', ' ', 'n'] :
          List Char) =
        ['\x7b', '"', 'b', 'o', 'd', 'y', '"', ':', ' ', '\x7b'] :=
      congrArg (List.take 10) h
    exact absurd h10 (by decide)
  · intro h
    exact absurd h (by decide)

/-- Claim C9 witness: the fingerprint distinction at a concrete request. -/
theorem body_absent_vs_empty_distinct_witness :
    cache_key_string { url := "https://example.com/a", method := "GET" } ≠
      cache_key_string
        { url := "https://example.com/a", method := "GET", body := .obj [] } :=
  body_absent_vs_empty_distinct.1 _ _ _ _

/-- A plain 200 response used as a concrete stored value. -/
def resp200 : ProxyResponse := { status_code := 200, content := [], headers := [] }

/-- Operation `set` preserves the size bound when `max_size ≥ 1`. -/
theorem set_length_le (st : MemoryCacheBackend) (now : ℤ) (key : String)
    (v : ProxyResponse) (ttl : Option ℤ) (hm : 1 ≤ st.max_size)
    (h : st.cache.length ≤ st.max_size) :
    (st.set now key v ttl).cache.length ≤ st.max_size := by
  unfold MemoryCacheBackend.set
  simp only []
  set c1 :=
    if (lookupKey st.cache key).isSome then eraseKey st.cache key
    else st.cache with hc1
  have h1 : c1.length ≤ st.max_size := by
    rw [hc1]; split
    · exact le_trans (length_eraseKey_le _ _) h
    · exact h
  by_cases h2 : c1.length ≥ st.max_size
  · have he : c1.length = st.max_size := le_antisymm h1 h2
    simp [if_pos h2, List.length_append, List.length_drop, he,
      Nat.sub_add_cancel hm]
  · simp only [if_neg h2, List.length_append, List.length_singleton]
    exact Nat.succ_le_of_lt (Nat.lt_of_not_le h2)

/-- Every store operation leaves `max_size` unchanged. -/
theorem applyMemOp_max_size (st : MemoryCacheBackend) (op : MemOp) :
    (applyMemOp st op).max_size = st.max_size := by
  cases op with
  | get now key =>
    simp only [applyMemOp, MemoryCacheBackend.get]
    rcases lookupKey st.cache key with _ | ⟨d, e⟩
    · rfl
    · dsimp only; split <;> rfl
  | set now key v ttl => rfl
  | delete key => rfl
  | existsKey now key =>
    simp only [applyMemOp, MemoryCacheBackend.existsKey]
    rcases lookupKey st.cache key with _ | ⟨d, e⟩
    · rfl
    · dsimp only; split <;> rfl

/-- Every store operation preserves the size bound when `max_size ≥ 1`. -/
theorem applyMemOp_length (st : MemoryCacheBackend) (op : MemOp)
    (hm : 1 ≤ st.max_size) (h : st.cache.length ≤ st.max_size) :
    (applyMemOp st op).cache.length ≤ st.max_size := by
  cases op with
  | get now key =>
    simp only [applyMemOp, MemoryCacheBackend.get]
    rcases hl : lookupKey st.cache key with _ | ⟨d, e⟩
    · exact h
    · dsimp only; split
      · exact le_trans (length_eraseKey_le _ _) h
      · simp only [moveToEnd, hl, List.length_append, List.length_singleton]
        have hlt : (eraseKey st.cache key).length < st.cache.length :=
          length_eraseKey_lt _ _ (by simp [hl])
        exact le_trans (Nat.succ_le_of_lt hlt) h
  | set now key v ttl => exact set_length_le st now key v ttl hm h
  | delete key => exact le_trans (length_eraseKey_le _ _) h
  | existsKey now key =>
    simp only [applyMemOp, MemoryCacheBackend.existsKey]
    rcases lookupKey st.cache key with _ | ⟨d, e⟩
    · exact h
    · dsimp only; split
      · exact le_trans (length_eraseKey_le _ _) h
      · exact h

/-- Any operation sequence preserves the size bound and the configured
maximum. -/
theorem runMemOps_bound (ops : List MemOp) : ∀ st : MemoryCacheBackend,
    1 ≤ st.max_size → st.cache.length ≤ st.max_size →
    (runMemOps st ops).cache.length ≤ st.max_size ∧
      (runMemOps st ops).max_size = st.max_size := by
  induction ops with
  | nil => exact fun st _ h => ⟨h, rfl⟩
  | cons op rest ih =>
    intro st hm h
    have hmax := applyMemOp_max_size st op
    have hlen := applyMemOp_length st op hm h
    have hrec := ih (applyMemOp st op) (hmax ▸ hm) (hmax ▸ hlen)
    exact ⟨hrec.1.trans_eq hmax, hrec.2.trans hmax⟩

/-- Claim C5: starting from an empty store with `maxSize ≥ 1`, no sequence
of get/set/delete/exists operations pushes the entry count above `maxSize`;
a `set` of a new key at full capacity evicts exactly the least-recently-used
(front) entry before admitting the new one; and concretely, with
`maxSize = 2`, after `set a`, `set b`, `get a`, the call `set c` evicts `b`
and keeps `a`. -/
theorem memory_lru_bound_and_eviction :
    (∀ (maxSize : Nat) (dttl : ℤ) (ops : List MemOp), 1 ≤ maxSize →
      (runMemOps (MemoryCacheBackend.init maxSize dttl) ops).cache.length ≤
        maxSize)
    ∧ (∀ (st : MemoryCacheBackend) (now : ℤ) (key : String)
        (v : ProxyResponse) (ttl : Option ℤ),
        lookupKey st.cache key = none → st.cache.length = st.max_size →
        (st.set now key v ttl).cache =
          st.cache.drop 1 ++ [(key, (v, now + ttl.getD st.default_ttl))])
    ∧ (runMemOps (MemoryCacheBackend.init 2 300)
        [.set 0 "a" resp200 none, .set 0 "b" resp200 none, .get 0 "a",
         .set 0 "c" resp200 none]).cache.map Prod.fst = ["a", "c"] := by
  refine ⟨?_, ?_, by decide⟩
  · intro maxSize dttl ops hm
    exact (runMemOps_bound ops (MemoryCacheBackend.init maxSize dttl) hm
      (by simp [MemoryCacheBackend.init])).1
  · intro st now key v ttl h1 h2
    simp [MemoryCacheBackend.set, h1, h2]

/-- Claim C5 witness: the bound evaluated on the concrete four-operation
run with `maxSize = 2`. -/
theorem memory_lru_bound_and_eviction_witness :
    (runMemOps (MemoryCacheBackend.init 2 300)
      [.set 0 "a" resp200 none, .set 0 "b" resp200 none, .get 0 "a",
       .set 0 "c" resp200 none]).cache.length ≤ 2 :=
  memory_lru_bound_and_eviction.1 2 300 _ (by decide)

/-- Claim C6: `get` returns `None` on an absent key (leaving the store
unchanged); deletes the entry and returns `None` when `now > expiresAt`;
returns the stored value and moves the key to the most-recently-used end
when fresh (`now ≤ expiresAt`); and after `set(k, v, ttl=1)` at time 0 a
`get` at time 0 returns `v` while a `get` at time 2 returns `None`. -/
theorem memory_get_semantics :
    (∀ (st : MemoryCacheBackend) (now : ℤ) (key : String),
      lookupKey st.cache key = none → st.get now key = (none, st))
    ∧ (∀ (st : MemoryCacheBackend) (now : ℤ) (key : String)
        (data : ProxyResponse) (expiry : ℤ),
        lookupKey st.cache key = some (data, expiry) → expiry < now →
        st.get now key = (none, { st with cache := eraseKey st.cache key }))
    ∧ (∀ (st : MemoryCacheBackend) (now : ℤ) (key : String)
        (data : ProxyResponse) (expiry : ℤ),
        lookupKey st.cache key = some (data, expiry) → now ≤ expiry →
        st.get now key =
          (some data,
            { st with
              cache := eraseKey st.cache key ++ [(key, (data, expiry))] })
          ∧ (((st.get now key).2.cache.map Prod.fst).getLast? = some key))
    ∧ (∀ (k : String) (v : ProxyResponse),
        (((MemoryCacheBackend.init 1000 300).set 0 k v (some 1)).get 0 k).1 =
          some v
        ∧ (((MemoryCacheBackend.init 1000 300).set 0 k v (some 1)).get 2 k).1 =
            none) := by
  refine ⟨?_, ?_, ?_, ?_⟩
  · intro st now key h
    simp [MemoryCacheBackend.get, h]
  · intro st now key data expiry h hexp
    simp [MemoryCacheBackend.get, h, hexp]
  · intro st now key data expiry h hfresh
    have hcase : st.get now key =
        (some data,
          { st with
            cache := eraseKey st.cache key ++ [(key, (data, expiry))] }) := by
      simp [MemoryCacheBackend.get, h, moveToEnd, not_lt.mpr hfresh]
    refine ⟨hcase, ?_⟩
    rw [hcase]
    simp
  · intro k v
    constructor
    · simp [MemoryCacheBackend.get, MemoryCacheBackend.set,
        MemoryCacheBackend.init, lookupKey, List.find?, moveToEnd, eraseKey]
    · simp [MemoryCacheBackend.get, MemoryCacheBackend.set,
        MemoryCacheBackend.init, lookupKey, List.find?]

/-- Claim C6 witness: the fresh-hit clause evaluated at a concrete store. -/
theorem memory_get_semantics_witness :
    ((⟨[("k", (resp200, 10))], 1000, 300⟩ : MemoryCacheBackend).get 0 "k").1 =
      some resp200 := by
  have h := (memory_get_semantics.2.2.1
    ⟨[("k", (resp200, 10))], 1000, 300⟩ 0 "k" resp200 10 (by decide)
    (by norm_num)).1
  rw [h]

/-! ## Orchestrator lemmas and concrete runs -/

/-- After a `get` that reported a miss, the key is not in the store. -/
theorem get_none_lookup (st : MemoryCacheBackend) (now : ℤ) (key : String)
    (h : (st.get now key).1 = none) :
    lookupKey ((st.get now key).2).cache key = none := by
  unfold MemoryCacheBackend.get at h ⊢
  rcases hl : lookupKey st.cache key with _ | ⟨d, e⟩
  · simp [hl]
  · by_cases hc : e < now
    · simp [hl, hc, lookup_eraseKey_self]
    · simp [hl, hc] at h

/-- A cacheable miss stores the fetched response, uncached-flagged, keyed by
the derived key, expiring at `now + (ttl or settings.cache_ttl)`. -/
theorem process_mem_miss_stores (fetch : Fetcher) (settings_ttl now : ℤ)
    (s : AppState) (request : ProxyRequest) (ttl : Option ℤ) (f : FetchResult)
    (hmiss : (s.cache_manager.get now (generate_cache_key request)).1 = none)
    (hf : fetch request = some f)
    (hc : is_cacheable_response f.status_code f.headers = true) :
    lookupKey
      (process_proxy_request_mem fetch settings_ttl now s request
        ttl).2.cache_manager.cache
      (generate_cache_key request) =
    some ({ status_code := f.status_code, content := f.content,
            headers := f.headers, from_cache := false,
            cache_key := some (generate_cache_key request) },
          now + pyOrTTL ttl settings_ttl) := by
  have hl2 := get_none_lookup s.cache_manager now (generate_cache_key request)
    hmiss
  rcases hg : s.cache_manager.get now (generate_cache_key request) with ⟨co, mem⟩
  rw [hg] at hmiss hl2
  dsimp only at hmiss hl2
  subst hmiss
  simp only [process_proxy_request_mem, hg, hf, hc, if_true]
  unfold MemoryCacheBackend.set
  simp only [hl2, Option.isSome_none, Bool.false_eq_true, if_false]
  by_cases hd : mem.cache.length ≥ mem.max_size
  · rw [if_pos hd]
    exact lookup_append_single _ _ _ (lookup_drop_one _ _ hl2)
  · rw [if_neg hd]
    exact lookup_append_single _ _ _ hl2

/-- The origin fetcher returning a bare 200 with no headers. -/
def fetch200 : Fetcher :=
  fun _ => some { status_code := 200, content := [], headers := [] }

/-- A concrete GET request. -/
def reqA : ProxyRequest := { url := "https://example.com/a", method := "GET" }

/-- The property claimed of every reachable store state: no retained entry
has its `from_cache` flag set. -/
def StoreEntriesUncached (s : AppState) : Prop :=
  ∀ p ∈ s.cache_manager.cache, p.2.1.from_cache = false

/-- Two orchestrator requests for the same resource: a miss that caches,
then a hit one second later. -/
def twoStepRun : AppState :=
  runApp 300 (AppState.init 1000 300)
    [.proxy fetch200 0 reqA none, .proxy fetch200 1 reqA none]

/-- One orchestrator request carrying the per-call TTL override `0`. -/
def zeroTTLRun : AppState :=
  runApp 300 (AppState.init 1000 300) [.proxy fetch200 0 reqA (some 0)]

/-- A remote store whose transport accepts reads but fails writes. -/
def redisDownNet : RedisNet := { kv := [], setOk := false }

/-- Claim C2, counterexample: the state reached by two orchestrator requests
for the same resource — a caching miss, then a hit — holds an entry whose
`from_cache` flag is true: the hit path's field assignments on the returned
object mutate the very object the store retains, so serving a hit does
change the retained entry. -/
theorem store_fromCache_invariant_counterexample :
    ¬ StoreEntriesUncached twoStepRun := by
  unfold StoreEntriesUncached twoStepRun
  decide

/-- Claim C2, amended: an entry is always *written* with `from_cache = false`
during a cacheable miss, but the store does not keep it that way: serving a
hit rewrites the retained entry (the store holds the same Python object the
orchestrator mutates) to `from_cache = true` and `cache_key = key`.  The
claimed all-entries-uncached invariant holds only until the first hit. -/
theorem store_fromCache_write_and_hit_mutation :
    (∀ (fetch : Fetcher) (settings_ttl now : ℤ) (s : AppState)
      (request : ProxyRequest) (ttl : Option ℤ) (f : FetchResult),
      (s.cache_manager.get now (generate_cache_key request)).1 = none →
      fetch request = some f →
      is_cacheable_response f.status_code f.headers = true →
      lookupKey
          (process_proxy_request_mem fetch settings_ttl now s request
            ttl).2.cache_manager.cache (generate_cache_key request) =
        some ({ status_code := f.status_code, content := f.content,
                headers := f.headers, from_cache := false,
                cache_key := some (generate_cache_key request) },
              now + pyOrTTL ttl settings_ttl))
    ∧ (∀ (fetch : Fetcher) (settings_ttl now : ℤ) (s : AppState)
        (request : ProxyRequest) (ttl : Option ℤ) (cached : ProxyResponse)
        (mem : MemoryCacheBackend),
        s.cache_manager.get now (generate_cache_key request) =
          (some cached, mem) →
        ∃ expiry,
          lookupKey
              (process_proxy_request_mem fetch settings_ttl now s request
                ttl).2.cache_manager.cache (generate_cache_key request) =
            some ({ cached with
                      from_cache := true,
                      cache_key := some (generate_cache_key request) },
                  expiry)) := by
  constructor
  · exact fun fetch settings_ttl now s request ttl f hm hf hc =>
      process_mem_miss_stores fetch settings_ttl now s request ttl f hm hf hc
  · intro fetch settings_ttl now s request ttl cached mem hget
    unfold MemoryCacheBackend.get at hget
    rcases hl : lookupKey s.cache_manager.cache (generate_cache_key request)
      with _ | ⟨d, e⟩
    · rw [hl] at hget; simp at hget
    · rw [hl] at hget
      dsimp only at hget
      by_cases hexp : e < now
      · rw [if_pos hexp] at hget; simp at hget
      · rw [if_neg hexp] at hget
        have hd : d = cached := by
          have h1 := congrArg Prod.fst hget
          simpa using h1
        have hm : mem =
            { s.cache_manager with
              cache := moveToEnd s.cache_manager.cache
                (generate_cache_key request) } :=
          (congrArg Prod.snd hget).symm
        refine ⟨e, ?_⟩
        have hget2 : s.cache_manager.get now (generate_cache_key request) =
            (some cached, mem) := by
          unfold MemoryCacheBackend.get
          rw [hl]
          dsimp only
          rw [if_neg hexp, hd, hm]
        simp only [process_proxy_request_mem, hget2]
        rw [lookup_updateValue, hm]
        simp only [moveToEnd, hl]
        rw [lookup_append_single _ _ _
          (lookup_eraseKey_self s.cache_manager.cache _)]
        simp [hd]

/-- Claim C2 witness: the miss clause of the amended claim evaluated on the
first request of the concrete run: the entry is stored with
`from_cache = false` and expiry `0 + 300`. -/
theorem store_fromCache_write_and_hit_mutation_witness :
    lookupKey
        (process_proxy_request_mem fetch200 300 0 (AppState.init 1000 300)
          reqA none).2.cache_manager.cache (generate_cache_key reqA) =
      some ({ status_code := 200, content := [], headers := [],
              from_cache := false, cache_key := some (generate_cache_key reqA) },
            0 + pyOrTTL none 300) :=
  store_fromCache_write_and_hit_mutation.1 fetch200 300 0
    (AppState.init 1000 300) reqA none
    { status_code := 200, content := [], headers := [] } rfl rfl (by decide)

/-- Claim C8, counterexample: a per-call TTL override of `0` does not reach
`CacheStore.set`: with configured default 300 and override `ttl = 0`, the
entry written during the miss expires at `0 + 300` — `set` was invoked with
the default, not with the supplied `0` (`ttl or settings.cache_ttl` treats
the falsy `0` like `None`). -/
theorem ttl_zero_override_counterexample :
    (lookupKey zeroTTLRun.cache_manager.cache
        (generate_cache_key reqA)).map (fun p => p.2) = some 300 ∧
      (300 : ℤ) ≠ 0 + 0 := by
  constructor
  · unfold zeroTTLRun
    decide
  · decide

/-- Claim C8, amended: a nonzero per-call TTL override is passed to
`CacheStore.set` exactly; but both an absent override and an override of `0`
fall back to the configured default (`ttl or settings.cache_ttl` is falsy on
`0`), so a cacheable miss with override `t ≠ 0` stores an entry expiring at
`now + t`. -/
theorem ttl_override_fallback :
    (∀ t dflt : ℤ, t ≠ 0 → pyOrTTL (some t) dflt = t)
    ∧ (∀ dflt : ℤ, pyOrTTL none dflt = dflt)
    ∧ (∀ dflt : ℤ, pyOrTTL (some 0) dflt = dflt)
    ∧ (∀ (fetch : Fetcher) (settings_ttl now : ℤ) (s : AppState)
        (request : ProxyRequest) (t : ℤ) (f : FetchResult),
        (s.cache_manager.get now (generate_cache_key request)).1 = none →
        fetch request = some f →
        is_cacheable_response f.status_code f.headers = true →
        t ≠ 0 →
        (lookupKey
            (process_proxy_request_mem fetch settings_ttl now s request
              (some t)).2.cache_manager.cache
            (generate_cache_key request)).map (fun p => p.2) =
          some (now + t)) := by
  refine ⟨?_, fun _ => rfl, fun _ => rfl, ?_⟩
  · intro t dflt ht
    simp [pyOrTTL, ht]
  · intro fetch settings_ttl now s request t f hm hf hc ht
    rw [process_mem_miss_stores fetch settings_ttl now s request (some t) f
      hm hf hc]
    simp [pyOrTTL, ht]

/-- Claim C8 witness: the nonzero-override clauses at concrete values: an
override of `5` is passed as-is, and a miss with override `7` stores an
entry expiring at `0 + 7`. -/
theorem ttl_override_fallback_witness :
    pyOrTTL (some 5) 300 = 5 ∧
      (lookupKey
          (process_proxy_request_mem fetch200 300 0 (AppState.init 1000 300)
            reqA (some 7)).2.cache_manager.cache
          (generate_cache_key reqA)).map (fun p => p.2) = some (0 + 7) :=
  ⟨ttl_override_fallback.1 5 300 (by decide),
   ttl_override_fallback.2.2.2 fetch200 300 0 (AppState.init 1000 300) reqA 7
     { status_code := 200, content := [], headers := [] } rfl rfl (by decide)
     (by decide)⟩

/-- Claim C1, counterexample: with a reachable remote store, a successful
origin fetch and a failing store write, `process_proxy_request` does not
return the fresh response — the uncaught store exception escapes and the
request fails. -/
theorem redis_write_failure_fails_request_counterexample :
    (process_proxy_request_redis fetch200 300 0 redisDownNet {} reqA none).1 =
      Except.error ProxyFailure.storeUnavailable := rfl

/-- Claim C1, amended: a store-level failure of the cache write during a
miss propagates out of `process_proxy_request` as a request failure — the
source wraps `cache_manager.set` in no `try`/`except` — so the freshly
fetched origin response is returned only when the write succeeds or the
response is not cacheable. -/
theorem redis_write_failure_propagates (fetch : Fetcher)
    (settings_ttl now : ℤ) (r : RedisNet) (stats : Stats)
    (request : ProxyRequest) (ttl : Option ℤ) (f : FetchResult)
    (hget : r.getOk = true)
    (hmiss : lookupKey r.kv (generate_cache_key request) = none)
    (hf : fetch request = some f)
    (hc : is_cacheable_response f.status_code f.headers = true)
    (hset : r.setOk = false) :
    (process_proxy_request_redis fetch settings_ttl now r stats request
        ttl).1 = Except.error ProxyFailure.storeUnavailable := by
  unfold process_proxy_request_redis redisGet redisSet
  simp [hget, hmiss, hf, hc, hset]

/-- Claim C1 witness: the propagation theorem evaluated at the concrete
failing-write scenario. -/
theorem redis_write_failure_propagates_witness :
    (process_proxy_request_redis fetch200 300 0 redisDownNet {} reqA
        none).1 = Except.error ProxyFailure.storeUnavailable :=
  redis_write_failure_propagates fetch200 300 0 redisDownNet {} reqA none
    { status_code := 200, content := [], headers := [] }
    rfl rfl rfl (by decide) rfl

/-- Each proxy request increments `total_requests` once and exactly one of
`hits`/`misses`, on every path (hit, cacheable miss, non-cacheable miss,
failed fetch — the counters are mutated before the fetch). -/
theorem process_mem_stats (fetch : Fetcher) (settings_ttl now : ℤ)
    (s : AppState) (request : ProxyRequest) (ttl : Option ℤ) :
    ((process_proxy_request_mem fetch settings_ttl now s request
        ttl).2.cache_stats.total_requests =
      s.cache_stats.total_requests + 1)
    ∧ ((process_proxy_request_mem fetch settings_ttl now s request
          ttl).2.cache_stats.hits +
        (process_proxy_request_mem fetch settings_ttl now s request
          ttl).2.cache_stats.misses =
        s.cache_stats.hits + s.cache_stats.misses + 1) := by
  unfold process_proxy_request_mem
  rcases hg : s.cache_manager.get now (generate_cache_key request)
    with ⟨co, mem⟩
  cases co with
  | some cached => simp [hg]; omega
  | none =>
    cases hf : fetch request with
    | none => simp [hg, hf]; omega
    | some f =>
      simp only [hg, hf]
      split
      · simp; omega
      · simp; omega

/-- The counter invariant `total = hits + misses` is preserved by every
interaction sequence. -/
theorem runApp_stats_inv (steps : List AppStep) : ∀ (settings_ttl : ℤ)
    (s : AppState),
    s.cache_stats.total_requests = s.cache_stats.hits + s.cache_stats.misses →
    (runApp settings_ttl s steps).cache_stats.total_requests =
      (runApp settings_ttl s steps).cache_stats.hits +
        (runApp settings_ttl s steps).cache_stats.misses := by
  induction steps with
  | nil => exact fun _ _ h => h
  | cons step rest ih =>
    intro settings_ttl s h
    apply ih
    cases step with
    | proxy fetch now request ttl =>
      obtain ⟨h1, h2⟩ := process_mem_stats fetch settings_ttl now s request ttl
      simp only [applyAppStep]
      omega
    | cacheInfo now key => exact h
    | deleteItem key => exact h
    | clearCache => exact h

/-- Claim C4, counterexample: the stats state reached by one miss and one
hit reports a hit rate of a rounded percentage, not the exact rational
`hits / totalRequests`: with `hits = 1`, `totalRequests = 2` the endpoint
reports `round(1/2 * 100, 2) = 50`, not `1/2`. -/
theorem stats_hit_rate_counterexample :
    twoStepRun.cache_stats = { hits := 1, misses := 1, total_requests := 2 }
    ∧ get_stats_hit_rate twoStepRun.cache_stats ≠
        (twoStepRun.cache_stats.hits : ℚ) /
          (twoStepRun.cache_stats.total_requests : ℚ) := by
  have h : twoStepRun.cache_stats =
      { hits := 1, misses := 1, total_requests := 2 } := by
    unfold twoStepRun
    decide
  refine ⟨h, ?_⟩
  rw [h]
  have h50 : get_stats_hit_rate
      { hits := 1, misses := 1, total_requests := 2 } = 50 := by
    unfold get_stats_hit_rate pyRound2 pyRoundHalfEven
    have hc : (((1 : ℕ) : ℚ) / ((2 : ℕ) : ℚ) * 100) * 100 = ((5000 : ℤ) : ℚ) := by
      norm_num
    simp only [hc, Int.floor_intCast]
    norm_num
  rw [h50]
  norm_num

/-- Claim C4, amended: after any interaction sequence, `totalRequests`
equals `hits + misses`, and the reported hit rate is the rounded
*percentage* `round(hits / totalRequests * 100, 2)` — `0` when
`totalRequests = 0` — so after `N` misses and `M` hits it equals
`round(M / (M+N) * 100, 2)`, not the bare ratio `M / (M+N)`. -/
theorem stats_hit_rate_percentage :
    ∀ (settings_ttl : ℤ) (maxSize : Nat) (dttl : ℤ) (steps : List AppStep),
      ((runApp settings_ttl (AppState.init maxSize dttl)
          steps).cache_stats.total_requests =
        (runApp settings_ttl (AppState.init maxSize dttl)
            steps).cache_stats.hits +
          (runApp settings_ttl (AppState.init maxSize dttl)
              steps).cache_stats.misses)
      ∧ get_stats_hit_rate
          (runApp settings_ttl (AppState.init maxSize dttl)
            steps).cache_stats =
          (if (runApp settings_ttl (AppState.init maxSize dttl)
                  steps).cache_stats.hits +
                (runApp settings_ttl (AppState.init maxSize dttl)
                    steps).cache_stats.misses = 0 then 0
           else
             pyRound2
               (((runApp settings_ttl (AppState.init maxSize dttl)
                     steps).cache_stats.hits : ℚ) /
                   (((runApp settings_ttl (AppState.init maxSize dttl)
                         steps).cache_stats.hits +
                       (runApp settings_ttl (AppState.init maxSize dttl)
                           steps).cache_stats.misses : ℕ) : ℚ) * 100)) := by
  intro settings_ttl maxSize dttl steps
  have hinv := runApp_stats_inv steps settings_ttl
    (AppState.init maxSize dttl) rfl
  refine ⟨hinv, ?_⟩
  unfold get_stats_hit_rate
  rw [hinv]
  by_cases h0 : (runApp settings_ttl (AppState.init maxSize dttl)
      steps).cache_stats.hits +
      (runApp settings_ttl (AppState.init maxSize dttl)
          steps).cache_stats.misses = 0
  · simp [h0]
  · rw [if_pos (Nat.pos_of_ne_zero h0), if_neg h0]

end CachingProxy

